import Mathlib

/-!
Shallow embedding of the gget Gemini client core (src/gemini.rs and the
redirect loop of src/main.rs), together with theorems settling the spec
claims. Byte buffers and Rust strings are modelled as `List Nat` of byte
values; `std::str::from_utf8` becomes a UTF-8 validity check on the bytes,
and Rust panics are modelled as `Option.none` results.
-/

namespace Gget

/-- The CRLF constant of src/gemini.rs: `const CRLF: [u8; 2] = [0x0D, 0x0A]`. -/
def CRLF : List Nat := [0x0D, 0x0A]

/-- A UTF-8 continuation byte: `0x80..=0xBF` (Rust: `(b as i8) < -0x40`). -/
def contByte (b : Nat) : Bool := 0x80 ≤ b && b ≤ 0xBF

/-- Constraint on the second byte of a multi-byte UTF-8 sequence, indexed by
the leading byte, following the table used by `std::str::from_utf8`. -/
def secondByteOK (b b2 : Nat) : Bool :=
  if b = 0xE0 then 0xA0 ≤ b2 && b2 ≤ 0xBF
  else if b = 0xED then 0x80 ≤ b2 && b2 ≤ 0x9F
  else if b = 0xF0 then 0x90 ≤ b2 && b2 ≤ 0xBF
  else if b = 0xF4 then 0x80 ≤ b2 && b2 ≤ 0x8F
  else contByte b2

/-- UTF-8 validity of a byte sequence, as checked by `std::str::from_utf8`:
ASCII, or a 2-, 3- or 4-byte sequence with the standard leading-byte ranges
(overlong forms, surrogates and values above U+10FFFF rejected). -/
def utf8Valid : List Nat → Bool
  | [] => true
  | b :: rest =>
    if b ≤ 0x7F then utf8Valid rest
    else if 0xC2 ≤ b && b ≤ 0xDF then
      match rest with
      | b2 :: rest2 => contByte b2 && utf8Valid rest2
      | [] => false
    else if 0xE0 ≤ b && b ≤ 0xEF then
      match rest with
      | b2 :: b3 :: rest3 => secondByteOK b b2 && contByte b3 && utf8Valid rest3
      | _ => false
    else if 0xF0 ≤ b && b ≤ 0xF4 then
      match rest with
      | b2 :: b3 :: b4 :: rest4 =>
        secondByteOK b b2 && contByte b3 && contByte b4 && utf8Valid rest4
      | _ => false
    else false

/-- `Header` of src/gemini.rs; the Rust `String` fields are modelled as their
UTF-8 byte contents. -/
structure Header where
  status : List Nat
  meta : List Nat
deriving DecidableEq, Repr

/-- `Response` of src/gemini.rs. -/
structure Response where
  header : Header
  body : List Nat
deriving DecidableEq, Repr

/-- `GeminiError` of src/gemini.rs. The payload of `Utf8Error` (a
`std::str::Utf8Error` position) is dropped. -/
inductive GeminiError where
  | HeaderTooShort
  | MissingSpaceCharacter
  | MissingCRLF
  | UnknownStatus (status : List Nat)
  | Utf8Error
deriving DecidableEq, Repr

/-- `StatusCategory` of src/gemini.rs. -/
inductive StatusCategory where
  | Input
  | Success
  | Redirect
  | TemporaryFailure
  | PermanentFailure
  | ClientCertificateRequired
deriving DecidableEq, Repr

/-- `find_first` of src/gemini.rs:
`haystack.windows(needle.len()).position(|window| window == needle)` —
the index of the first window of the haystack equal to the needle. -/
def find_first : List Nat → List Nat → Option Nat
  | [], needle => if needle = [] then some 0 else none
  | x :: t, needle =>
    if (x :: t).take needle.length = needle then some 0
    else (find_first t needle).map (· + 1)

/-- `parse_header` of src/gemini.rs: a header of at least 3 bytes, split as
2 status bytes, one 0x20 byte, and the meta remainder; status then meta are
UTF-8-decoded in that order. -/
def parse_header (header : List Nat) : Except GeminiError Header :=
  if header.length ≤ 2 then .error .HeaderTooShort
  else if header.get? 2 = some 0x20 then
    if utf8Valid (header.take 2) then
      if utf8Valid (header.drop 3) then .ok ⟨header.take 2, header.drop 3⟩
      else .error .Utf8Error
    else .error .Utf8Error
  else .error .MissingSpaceCharacter

/-- `parse_response` of src/gemini.rs: split at the first CRLF, parse the
header part, UTF-8-decode the body part. -/
def parse_response (plaintext : List Nat) : Except GeminiError Response :=
  match find_first plaintext CRLF with
  | none => .error .MissingCRLF
  | some split_loc =>
    match parse_header (plaintext.take split_loc) with
    | .error e => .error e
    | .ok header =>
      if utf8Valid (plaintext.drop (split_loc + CRLF.length)) then
        .ok ⟨header, plaintext.drop (split_loc + CRLF.length)⟩
      else .error .Utf8Error

/-- `request` of src/gemini.rs: `[url.as_bytes(), &CRLF].concat()`. -/
def request (url : List Nat) : List Nat :=
  List.flatten [url, CRLF]

/-- Rust `str::is_char_boundary` on the byte contents of a string: index 0,
the total length, or any index holding a non-continuation byte. -/
def is_char_boundary (s : List Nat) (i : Nat) : Bool :=
  if i = 0 then true
  else
    match s.get? i with
    | none => i = s.length
    | some b => !contByte b

/-- `status_category` of src/gemini.rs. The Rust code slices `&status[0..1]`,
which panics when 1 is not a char boundary of the string (empty string, or a
multi-byte first character); the panic is modelled as `none`. Otherwise the
one-byte slice is matched against the digits 1-6. -/
def status_category (status : List Nat) : Option (Except GeminiError StatusCategory) :=
  if is_char_boundary status 1 then
    some (
      if status.take 1 = [49] then .ok .Input
      else if status.take 1 = [50] then .ok .Success
      else if status.take 1 = [51] then .ok .Redirect
      else if status.take 1 = [52] then .ok .TemporaryFailure
      else if status.take 1 = [53] then .ok .PermanentFailure
      else if status.take 1 = [54] then .ok .ClientCertificateRequired
      else .error (.UnknownStatus status))
  else none

/-- Errors surfaced by `recursive_fetch` of src/main.rs (an `anyhow::Error`
in the source): a transport-layer error propagated from `fetch`, a
`GeminiError` from `status_category`, or the maximum-redirects failure. -/
inductive FetchError (ε : Type) where
  | transport (e : ε)
  | gemini (e : GeminiError)
  | tooManyRedirects (limit : Nat)
deriving DecidableEq, Repr

/-- The loop of `recursive_fetch` of src/main.rs, instrumented with the
number of fetch attempts performed. `fetchFn i u` abstracts the `fetch`
call: the transport's response to the `i`-th attempt (0-based) at URL `u`.
`remaining` is `max_redirects + 1 - redirects`, the number of loop
iterations the guard `redirects <= max_redirects` still allows; `attempt`
counts the fetch attempts already made. A `status_category` panic makes the
whole run `none`. The second component of the result is the total number of
fetch attempts performed. -/
def recursive_fetch_go {ε : Type} (fetchFn : Nat → List Nat → Except ε Response)
    (max_redirects : Nat) :
    Nat → Nat → List Nat → Option (Except (FetchError ε) Response) × Nat
  | 0, attempt, _ => (some (.error (.tooManyRedirects max_redirects)), attempt)
  | remaining + 1, attempt, url =>
    match fetchFn attempt url with
    | .error e => (some (.error (.transport e)), attempt + 1)
    | .ok response =>
      match status_category response.header.status with
      | none => (none, attempt + 1)
      | some (.error e) => (some (.error (.gemini e)), attempt + 1)
      | some (.ok c) =>
        if c = StatusCategory.Redirect then
          recursive_fetch_go fetchFn max_redirects remaining (attempt + 1)
            response.header.meta
        else (some (.ok response), attempt + 1)

/-- `recursive_fetch` of src/main.rs: starts with `redirects = 0`, so the
guard admits `max_redirects + 1` iterations. -/
def recursive_fetch {ε : Type} (fetchFn : Nat → List Nat → Except ε Response)
    (url : List Nat) (max_redirects : Nat) : Option (Except (FetchError ε) Response) :=
  (recursive_fetch_go fetchFn max_redirects (max_redirects + 1) 0 url).1

/-- Number of fetch attempts `recursive_fetch` performs. -/
def fetch_attempts {ε : Type} (fetchFn : Nat → List Nat → Except ε Response)
    (url : List Nat) (max_redirects : Nat) : Nat :=
  (recursive_fetch_go fetchFn max_redirects (max_redirects + 1) 0 url).2

/-- Whether a byte list contains the two-byte sequence CR LF (13, 10) at
consecutive positions; the condition named by the spec claims. -/
def containsCRLF : List Nat → Bool
  | [] => false
  | [_] => false
  | a :: b :: t => (a == 13 && b == 10) || containsCRLF (b :: t)

/-- Number of bytes of the UTF-8 character introduced by leading byte `b`
(0 when `b` cannot lead a character). -/
def utf8CharLen (b : Nat) : Nat :=
  if b ≤ 0x7F then 1
  else if 0xC2 ≤ b && b ≤ 0xDF then 2
  else if 0xE0 ≤ b && b ≤ 0xEF then 3
  else if 0xF0 ≤ b && b ≤ 0xF4 then 4
  else 0

/-- A byte list encoding exactly one UTF-8 character. -/
def utf8OneChar (l : List Nat) : Bool :=
  match l with
  | [] => false
  | b :: _ => utf8Valid l && l.length == utf8CharLen b

/-- Modelled from the spec: the classification table of `classify` — the
leading byte alone selects the category, any other leading byte yields
`UnknownStatus` carrying the full status string. Used to compare
`status_category` against the spec's mapping. -/
def classifySpec (c : Nat) (s : List Nat) : Except GeminiError StatusCategory :=
  if c = 49 then .ok .Input
  else if c = 50 then .ok .Success
  else if c = 51 then .ok .Redirect
  else if c = 52 then .ok .TemporaryFailure
  else if c = 53 then .ok .PermanentFailure
  else if c = 54 then .ok .ClientCertificateRequired
  else .error (.UnknownStatus s)

/-! ## Helper lemmas -/

instance {ε α : Type} [DecidableEq ε] [DecidableEq α] :
    DecidableEq (Except ε α) := fun a b =>
  match a, b with
  | .error x, .error y =>
    if h : x = y then .isTrue (by rw [h])
    else .isFalse (by intro hh; cases hh; exact h rfl)
  | .ok x, .ok y =>
    if h : x = y then .isTrue (by rw [h])
    else .isFalse (by intro hh; cases hh; exact h rfl)
  | .error _, .ok _ => .isFalse (by intro hh; cases hh)
  | .ok _, .error _ => .isFalse (by intro hh; cases hh)

/-- Unfolding of `find_first` for the CRLF needle on a nonempty haystack. -/
lemma find_first_crlf_cons (x : Nat) (t : List Nat) :
    find_first (x :: t) CRLF =
      if (x :: t).take 2 = [13, 10] then some 0
      else (find_first t CRLF).map (· + 1) := by
  simp [find_first, CRLF]

/-- Unfolding of `find_first` for the CRLF needle with two visible bytes. -/
lemma find_first_crlf_cons_cons (x c : Nat) (t : List Nat) :
    find_first (x :: c :: t) CRLF =
      if x = 13 ∧ c = 10 then some 0
      else (find_first (c :: t) CRLF).map (· + 1) := by
  rw [find_first_crlf_cons]
  by_cases h : x = 13 ∧ c = 10
  · obtain ⟨rfl, rfl⟩ := h
    simp
  · rw [if_neg h, if_neg]
    simp only [List.take_succ_cons, List.take_zero, List.cons.injEq, and_true]
    tauto

/-- `find_first` on a singleton never finds CRLF. -/
lemma find_first_crlf_single (x : Nat) : find_first [x] CRLF = none := by
  simp [find_first, CRLF]

/-- `find_first` finds no CRLF exactly when the buffer has no CR LF pair. -/
lemma find_first_crlf_none_iff (l : List Nat) :
    find_first l CRLF = none ↔ containsCRLF l = false := by
  induction l with
  | nil => simp [find_first, CRLF, containsCRLF]
  | cons x t ih =>
    cases t with
    | nil => simp [find_first_crlf_single, containsCRLF]
    | cons b t' =>
      rw [find_first_crlf_cons_cons]
      by_cases hxb : x = 13 ∧ b = 10
      · obtain ⟨rfl, rfl⟩ := hxb
        simp [containsCRLF]
      · rw [if_neg hxb]
        simp only [Option.map_eq_none', ih, containsCRLF,
          Bool.or_eq_false_iff, Bool.and_eq_false_iff, beq_eq_false_iff_ne,
          ne_eq]
        tauto

/-- When the haystack has no CR LF pair, appending CR LF followed by
anything puts the first CRLF occurrence exactly at the haystack's length. -/
lemma find_first_crlf_append (h b : List Nat) (hh : containsCRLF h = false) :
    find_first (h ++ 13 :: 10 :: b) CRLF = some h.length := by
  induction h with
  | nil =>
    rw [List.nil_append, find_first_crlf_cons_cons, if_pos ⟨rfl, rfl⟩]
    rfl
  | cons x t ih =>
    cases t with
    | nil =>
      rw [List.cons_append, List.nil_append, find_first_crlf_cons_cons,
        if_neg (by omega), find_first_crlf_cons_cons, if_pos ⟨rfl, rfl⟩]
      rfl
    | cons c t' =>
      have hcc : containsCRLF (c :: t') = false := by
        simp only [containsCRLF, Bool.or_eq_false_iff] at hh
        exact hh.2
      have hxc : ¬(x = 13 ∧ c = 10) := by
        simp only [containsCRLF, Bool.or_eq_false_iff, Bool.and_eq_false_iff,
          beq_eq_false_iff_ne, ne_eq] at hh
        tauto
      rw [List.cons_append, List.cons_append, find_first_crlf_cons_cons,
        if_neg hxc]
      rw [show (c :: t') ++ 13 :: 10 :: b = c :: (t' ++ 13 :: 10 :: b) from rfl] at ih
      rw [ih hcc]
      simp [List.length_cons]

/-- A found CRLF position leaves at least two bytes after it. -/
lemma find_first_crlf_le (l : List Nat) :
    ∀ i, find_first l CRLF = some i → i + 2 ≤ l.length := by
  induction l with
  | nil => intro i h; simp [find_first, CRLF] at h
  | cons x t ih =>
    intro i h
    rw [find_first_crlf_cons] at h
    split at h
    · rename_i htake
      have hlen : 2 ≤ (x :: t).length := by
        have h2 := congrArg List.length htake
        rw [List.length_take] at h2
        have h3 : ([13, 10] : List Nat).length = 2 := rfl
        rw [h3] at h2
        omega
      cases h
      omega
    · rcases Option.map_eq_some'.mp h with ⟨j, hj, rfl⟩
      have := ih j hj
      simp only [List.length_cons]
      omega

/-- A buffer ending in CR LF always yields a CRLF position. -/
lemma find_first_append_crlf_isSome (u : List Nat) :
    find_first (u ++ CRLF) CRLF ≠ none := by
  induction u with
  | nil => decide
  | cons x t ih =>
    rw [List.cons_append, find_first_crlf_cons]
    split
    · simp
    · simp only [ne_eq, Option.map_eq_none']
      exact ih

/-- `parse_header` never produces the `MissingCRLF` error. -/
lemma parse_header_error_ne (l : List Nat) (e : GeminiError)
    (he : parse_header l = .error e) : e ≠ .MissingCRLF := by
  unfold parse_header at he
  split_ifs at he <;> cases he <;> decide

/-- A successful `parse_header` returns the first 2 header bytes as status
and the bytes from offset 3 as meta, with all validity checks passed. -/
lemma parse_header_ok (l : List Nat) (hdr : Header)
    (h : parse_header l = .ok hdr) :
    2 < l.length ∧ l.get? 2 = some 0x20 ∧ hdr.status = l.take 2
      ∧ hdr.meta = l.drop 3 ∧ utf8Valid hdr.status = true
      ∧ utf8Valid hdr.meta = true := by
  unfold parse_header at h
  split_ifs at h with h1 h2 h3 h4 <;>
    first
    | (cases h; exact ⟨by omega, h2, rfl, rfl, h3, h4⟩)
    | (cases h)

/-- When a CRLF is found, `parse_response` is the header parse of the bytes
before it followed by the UTF-8 check of the bytes after it. -/
lemma parse_response_eq_of_find (buf : List Nat) (i : Nat)
    (hf : find_first buf CRLF = some i) :
    parse_response buf =
      match parse_header (buf.take i) with
      | .error e => .error e
      | .ok header =>
        if utf8Valid (buf.drop (i + 2)) then .ok ⟨header, buf.drop (i + 2)⟩
        else .error .Utf8Error := by
  unfold parse_response
  rw [hf]
  rfl

/-- A one-character byte sequence is nonempty and starts with a
non-continuation byte: its length equals the length its leading byte
declares, which forces the leading byte into a leading-byte range. -/
lemma utf8OneChar_head (d : List Nat) (hd : utf8OneChar d = true) :
    ∃ b t, d = b :: t ∧ contByte b = false := by
  match d with
  | [] => simp [utf8OneChar] at hd
  | b :: t =>
    refine ⟨b, t, rfl, ?_⟩
    simp only [utf8OneChar, Bool.and_eq_true, beq_iff_eq] at hd
    have hlen : (b :: t).length = utf8CharLen b := hd.2
    cases hcb : contByte b
    · rfl
    · exfalso
      simp only [contByte, Bool.and_eq_true, decide_eq_true_eq] at hcb
      have c1 : ¬ (b ≤ 0x7F) := by omega
      have c2 : ¬ ((0xC2 ≤ b && b ≤ 0xDF) = true) := by
        simp only [Bool.and_eq_true, decide_eq_true_eq]
        omega
      have c3 : ¬ ((0xE0 ≤ b && b ≤ 0xEF) = true) := by
        simp only [Bool.and_eq_true, decide_eq_true_eq]
        omega
      have c4 : ¬ ((0xF0 ≤ b && b ≤ 0xF4) = true) := by
        simp only [Bool.and_eq_true, decide_eq_true_eq]
        omega
      unfold utf8CharLen at hlen
      rw [if_neg c1, if_neg c2, if_neg c3, if_neg c4] at hlen
      simp at hlen

/-- `parse_response` on a buffer without CRLF is the MissingCRLF error. -/
lemma parse_response_eq_of_find_none (buf : List Nat)
    (hf : find_first buf CRLF = none) :
    parse_response buf = .error .MissingCRLF := by
  unfold parse_response
  rw [hf]

/-- A header-parse failure is propagated unchanged by `parse_response`. -/
lemma parse_response_of_header_error (buf : List Nat) (i : Nat)
    (e : GeminiError) (hf : find_first buf CRLF = some i)
    (hp : parse_header (buf.take i) = .error e) :
    parse_response buf = .error e := by
  rw [parse_response_eq_of_find buf i hf, hp]

/-- After a successful header parse, `parse_response` reduces to the UTF-8
check of the body bytes. -/
lemma parse_response_of_header_ok (buf : List Nat) (i : Nat) (hdr : Header)
    (hf : find_first buf CRLF = some i)
    (hp : parse_header (buf.take i) = .ok hdr) :
    parse_response buf =
      if utf8Valid (buf.drop (i + 2)) then .ok ⟨hdr, buf.drop (i + 2)⟩
      else .error .Utf8Error := by
  rw [parse_response_eq_of_find buf i hf, hp]

/-! ## Claim theorems -/

/-- C4: for every URL byte string `u`, `request u` is exactly the bytes of
`u` followed by the two bytes 0x0D 0x0A and nothing else — no other framing
and no length prefix; the function is total (a pure Lean function). -/
theorem C4_request_frames_url (u : List Nat) :
    request u = u ++ [0x0D, 0x0A] := by
  simp [request, CRLF]

/-- C5 counterexample: the claim "for any fixed leading character the result
is the same for every second character" fails: with leading character 7, the
`UnknownStatus` error carries the full status string, so the results for
second characters x and y differ. -/
theorem C5_counterexample :
    status_category [55, 120] ≠ status_category [55, 121] := by decide

/-- C5 (amended): for every 2-character status string whose leading
character is a single byte, `status_category` inspects only the leading
byte: it maps the digits 1-6 to their categories and any other single-byte
leading character to `UnknownStatus` carrying the full string; for leading
digits 1-6 the result is independent of the second character (for other
leading characters the carried status string still varies with it). -/
theorem C5_classify_by_leading_byte (c : Nat) (d : List Nat)
    (hc : c ≤ 0x7F) (hd : utf8OneChar d = true) :
    status_category (c :: d) = some (classifySpec c (c :: d))
    ∧ ∀ d', utf8OneChar d' = true → 49 ≤ c → c ≤ 54 →
        status_category (c :: d) = status_category (c :: d') := by
  have key : ∀ e, utf8OneChar e = true →
      status_category (c :: e) = some (classifySpec c (c :: e)) := by
    intro e he
    obtain ⟨b, t, rfl, hb⟩ := utf8OneChar_head e he
    have hbnd : is_char_boundary (c :: b :: t) 1 = true := by
      simp [is_char_boundary, hb]
    simp [status_category, hbnd, classifySpec]
  refine ⟨key d hd, ?_⟩
  intro d' hd' h49 h54
  rw [key d hd, key d' hd']
  unfold classifySpec
  interval_cases c <;> simp

/-- C5 witness: the amended theorem applied to the status string 1x (and the
independence part to 1x versus 1y). -/
theorem C5_witness :
    status_category [49, 120] = some (.ok .Input)
    ∧ status_category [49, 120] = status_category [49, 121] := by
  have h := C5_classify_by_leading_byte 49 [120] (by decide) (by decide)
  exact ⟨by rw [h.1]; decide, h.2 [121] (by decide) (by decide) (by decide)⟩

/-- C6 counterexample: for the URL bytes of the string gemini, parsing the
encoded request fails with `MissingSpaceCharacter`, not `MissingCRLF` — the
request's own CR LF terminator is found, so the claimed failure is wrong. -/
theorem C6_counterexample :
    parse_response (request [103, 101, 109, 105, 110, 105]) =
      .error .MissingSpaceCharacter
    ∧ parse_response (request [103, 101, 109, 105, 110, 105]) ≠
      .error .MissingCRLF := by decide

/-- C6 (amended): for every URL byte string `u`, `parse_response` applied to
exactly `request u` never fails with `MissingCRLF`: the CR LF appended by
`request` itself is always found as a terminator (the outcome is whatever
parsing `u`'s prefix as a header yields). -/
theorem C6_request_not_missing_crlf (u : List Nat) :
    parse_response (request u) ≠ .error .MissingCRLF := by
  have hreq : request u = u ++ CRLF := by simp [request]
  rw [hreq]
  cases hf : find_first (u ++ CRLF) CRLF with
  | none => exact absurd hf (find_first_append_crlf_isSome u)
  | some i =>
    cases hp : parse_header ((u ++ CRLF).take i) with
    | error e =>
      rw [parse_response_of_header_error _ _ _ hf hp]
      intro hcon
      injection hcon with he
      exact parse_header_error_ne _ _ hp he
    | ok hdr =>
      rw [parse_response_of_header_ok _ _ _ hf hp]
      split
      · intro hcon
        cases hcon
      · intro hcon
        injection hcon with he
        cases he

/-- C7 counterexample: a response whose status bytes are the single 2-byte
UTF-8 character U+00A0 parses successfully, yet the status is not made of
ASCII bytes — the claimed ASCII invariant fails. -/
theorem C7_counterexample :
    parse_response [0xC2, 0xA0, 0x20, 13, 10, 120] =
      .ok ⟨⟨[0xC2, 0xA0], []⟩, [120]⟩
    ∧ ([0xC2, 0xA0].all fun b => b < 128) = false := by decide

/-- C7 (amended): for every buffer on which `parse_response` succeeds, the
returned header's status consists of exactly 2 bytes forming valid UTF-8
(but not necessarily ASCII bytes). -/
theorem C7_status_two_bytes (buf : List Nat) (r : Response)
    (h : parse_response buf = .ok r) :
    r.header.status.length = 2 ∧ utf8Valid r.header.status = true := by
  cases hf : find_first buf CRLF with
  | none =>
    rw [parse_response_eq_of_find_none buf hf] at h
    cases h
  | some i =>
    cases hp : parse_header (buf.take i) with
    | error e =>
      rw [parse_response_of_header_error buf i e hf hp] at h
      cases h
    | ok hdr =>
      rw [parse_response_of_header_ok buf i hdr hf hp] at h
      split at h
      · cases h
        obtain ⟨hl, hsp, hst, hm, hu1, hu2⟩ := parse_header_ok _ _ hp
        refine ⟨?_, hu1⟩
        rw [hst, List.length_take]
        omega
      · cases h

/-- C7 witness: the amended invariant evaluated on a concrete successful
parse. -/
theorem C7_witness :
    (⟨⟨[50, 48], []⟩, []⟩ : Response).header.status.length = 2
    ∧ utf8Valid (⟨⟨[50, 48], []⟩, []⟩ : Response).header.status = true :=
  C7_status_two_bytes [50, 48, 32, 13, 10] ⟨⟨[50, 48], []⟩, []⟩ (by decide)

/-- C9: `status_category` is partial: the slice of the first byte panics on
the empty string and on any string whose second byte is a UTF-8
continuation byte (that is, whose first character occupies more than one
byte); and there is a buffer — a 2-byte UTF-8 character, a space, CR LF —
on which `parse_response` succeeds while `status_category` applied to the
returned status reaches the panic branch. -/
theorem C9_status_category_panics :
    status_category [] = none
    ∧ (∀ b c rest, 0x80 ≤ c → c ≤ 0xBF →
        status_category (b :: c :: rest) = none)
    ∧ parse_response [0xC2, 0xA0, 0x20, 13, 10] = .ok ⟨⟨[0xC2, 0xA0], []⟩, []⟩
    ∧ status_category [0xC2, 0xA0] = none := by
  refine ⟨by decide, ?_, by decide, by decide⟩
  intro b c rest h1 h2
  have hcb : contByte c = true := by
    simp only [contByte, Bool.and_eq_true, decide_eq_true_eq]
    exact ⟨h1, h2⟩
  have hbnd : is_char_boundary (b :: c :: rest) 1 = false := by
    simp [is_char_boundary, hcb]
  simp [status_category, hbnd]

/-- C9 witness: the panic case of the general statement at a concrete
2-byte-character status. -/
theorem C9_witness : status_category [198, 169] = none :=
  C9_status_category_panics.2.1 198 169 [] (by decide) (by decide)

/-- C1: for every header made of 2 status bytes, a space and a meta string —
the header containing no CR LF pair, status and meta valid UTF-8 — and
every valid-UTF-8 trailing byte sequence (possibly containing CR LF),
`parse_response` of header ++ CRLF ++ trailer succeeds with that status,
meta and the trailer as body: the split uses the first CRLF, so CR LF
inside the body never changes the result. -/
theorem C1_parse_valid_response (status meta body : List Nat)
    (hs2 : status.length = 2)
    (hsv : utf8Valid status = true) (hmv : utf8Valid meta = true)
    (hbv : utf8Valid body = true)
    (hnc : containsCRLF (status ++ 0x20 :: meta) = false) :
    parse_response ((status ++ 0x20 :: meta) ++ CRLF ++ body) =
      .ok ⟨⟨status, meta⟩, body⟩ := by
  have hfind : find_first ((status ++ 0x20 :: meta) ++ CRLF ++ body) CRLF
      = some (status ++ 0x20 :: meta).length := by
    have heq : (status ++ 0x20 :: meta) ++ CRLF ++ body
        = (status ++ 0x20 :: meta) ++ 13 :: 10 :: body := by
      simp [CRLF]
    rw [heq]
    exact find_first_crlf_append _ body hnc
  have htake : ((status ++ 0x20 :: meta) ++ CRLF ++ body).take
      (status ++ 0x20 :: meta).length = status ++ 0x20 :: meta := by
    rw [List.append_assoc]
    exact List.take_left _ _
  have hdrop : ((status ++ 0x20 :: meta) ++ CRLF ++ body).drop
      ((status ++ 0x20 :: meta).length + 2) = body := by
    have h1 : ((status ++ 0x20 :: meta) ++ CRLF).length
        = (status ++ 0x20 :: meta).length + 2 := by
      simp [CRLF]
      omega
    rw [← h1]
    exact List.drop_left _ _
  have hph : parse_header (status ++ 0x20 :: meta) = .ok ⟨status, meta⟩ := by
    have hlen : (status ++ 0x20 :: meta).length = meta.length + 3 := by
      simp only [List.length_append, List.length_cons, hs2]
      omega
    unfold parse_header
    rw [if_neg (by omega)]
    have hget : (status ++ 0x20 :: meta).get? 2 = some 0x20 := by
      rw [List.get?_append_right (by omega)]
      rw [hs2]
      rfl
    rw [if_pos hget]
    have htk2 : (status ++ 0x20 :: meta).take 2 = status := by
      rw [← hs2]
      exact List.take_left _ _
    have hdp3 : (status ++ 0x20 :: meta).drop 3 = meta := by
      rw [show status ++ 0x20 :: meta = (status ++ [0x20]) ++ meta by simp]
      rw [show (3 : Nat) = (status ++ [0x20]).length by simp [hs2]]
      exact List.drop_left _ _
    rw [htk2, hdp3, if_pos hsv, if_pos hmv]
  have hmain := parse_response_of_header_ok _ _ ⟨status, meta⟩ hfind
    (by rw [htake]; exact hph)
  rw [hmain, hdrop, if_pos hbv]

/-- C1 witness: a concrete valid response whose body itself contains a
CR LF pair. -/
theorem C1_witness :
    parse_response (([50, 48] ++ 0x20 :: [120]) ++ CRLF ++ [13, 10, 122]) =
      .ok ⟨⟨[50, 48], [120]⟩, [13, 10, 122]⟩ :=
  C1_parse_valid_response [50, 48] [120] [13, 10, 122]
    (by decide) (by decide) (by decide) (by decide) (by decide)

/-- C2: `parse_response` fails with `MissingCRLF` exactly when the buffer
has no CR LF pair; when the first CRLF is at position `i`, it fails with
`HeaderTooShort` exactly when `i < 3`; when `3 ≤ i`, it fails with
`MissingSpaceCharacter` exactly when the header byte at offset 2 is not
0x20; and a UTF-8 failure is only reported once all those checks passed —
the checks apply in exactly this priority order. -/
theorem C2_error_priority (buf : List Nat) :
    (parse_response buf = .error .MissingCRLF ↔ containsCRLF buf = false)
    ∧ ∀ i, find_first buf CRLF = some i →
        ((parse_response buf = .error .HeaderTooShort ↔ i < 3)
         ∧ (3 ≤ i →
             (parse_response buf = .error .MissingSpaceCharacter ↔
               ¬ (buf.take i).get? 2 = some 0x20))
         ∧ (parse_response buf = .error .Utf8Error →
             3 ≤ i ∧ (buf.take i).get? 2 = some 0x20)) := by
  constructor
  · cases hf : find_first buf CRLF with
    | none =>
      rw [parse_response_eq_of_find_none buf hf]
      simp [(find_first_crlf_none_iff buf).mp hf]
    | some i =>
      have hne : parse_response buf ≠ .error .MissingCRLF := by
        cases hp : parse_header (buf.take i) with
        | error e =>
          rw [parse_response_of_header_error buf i e hf hp]
          intro hcon
          injection hcon with he
          exact parse_header_error_ne _ _ hp he
        | ok hdr =>
          rw [parse_response_of_header_ok buf i hdr hf hp]
          split
          · intro hcon
            cases hcon
          · intro hcon
            injection hcon with he
            cases he
      have hcc : containsCRLF buf = true := by
        by_contra hcf
        rw [Bool.not_eq_true] at hcf
        rw [(find_first_crlf_none_iff buf).mpr hcf] at hf
        cases hf
      exact ⟨fun hcon => absurd hcon hne,
        fun hfalse => by rw [hcc] at hfalse; cases hfalse⟩
  · intro i hf
    have hle := find_first_crlf_le buf i hf
    have hlt : (buf.take i).length = i := by
      rw [List.length_take]
      omega
    by_cases hi : i < 3
    · have hpH : parse_header (buf.take i) = .error .HeaderTooShort := by
        unfold parse_header
        rw [if_pos (by omega)]
      have hres : parse_response buf = .error .HeaderTooShort :=
        parse_response_of_header_error buf i _ hf hpH
      rw [hres]
      refine ⟨⟨fun _ => hi, fun _ => rfl⟩, fun h3 => absurd h3 (by omega), ?_⟩
      intro hcon
      injection hcon with he
      cases he
    · push_neg at hi
      by_cases hsp : (buf.take i).get? 2 = some 0x20
      · have hph : parse_header (buf.take i) =
            (if utf8Valid ((buf.take i).take 2) then
              (if utf8Valid ((buf.take i).drop 3) then
                .ok ⟨(buf.take i).take 2, (buf.take i).drop 3⟩
               else .error .Utf8Error)
             else .error .Utf8Error) := by
          unfold parse_header
          rw [if_neg (by omega), if_pos hsp]
        have conclude : ∀ res : Except GeminiError Response,
            parse_response buf = res →
            res ≠ .error .HeaderTooShort →
            res ≠ .error .MissingSpaceCharacter →
            ((parse_response buf = .error .HeaderTooShort ↔ i < 3)
             ∧ (3 ≤ i →
                 (parse_response buf = .error .MissingSpaceCharacter ↔
                   ¬ (buf.take i).get? 2 = some 0x20))
             ∧ (parse_response buf = .error .Utf8Error →
                 3 ≤ i ∧ (buf.take i).get? 2 = some 0x20)) := by
          intro res hres hn1 hn2
          rw [hres]
          exact ⟨⟨fun hcon => absurd hcon hn1, fun h3 => absurd h3 (by omega)⟩,
            fun _ => ⟨fun hcon => absurd hcon hn2, fun hns => absurd hsp hns⟩,
            fun _ => ⟨hi, hsp⟩⟩
        cases hu1 : utf8Valid ((buf.take i).take 2) with
        | false =>
          exact conclude (.error .Utf8Error)
            (parse_response_of_header_error _ _ _ hf (by simp [hph, hu1]))
            (by decide) (by decide)
        | true =>
          cases hu2 : utf8Valid ((buf.take i).drop 3) with
          | false =>
            exact conclude (.error .Utf8Error)
              (parse_response_of_header_error _ _ _ hf
                (by simp [hph, hu1, hu2]))
              (by decide) (by decide)
          | true =>
            have hpo : parse_header (buf.take i) =
                .ok ⟨(buf.take i).take 2, (buf.take i).drop 3⟩ := by
              simp [hph, hu1, hu2]
            cases hu3 : utf8Valid (buf.drop (i + 2)) with
            | false =>
              refine conclude (.error .Utf8Error) ?_ (by decide) (by decide)
              rw [parse_response_of_header_ok _ _ _ hf hpo,
                if_neg (by simp [hu3])]
            | true =>
              refine conclude
                (.ok ⟨⟨(buf.take i).take 2, (buf.take i).drop 3⟩,
                  buf.drop (i + 2)⟩) ?_
                (by intro hcon; cases hcon) (by intro hcon; cases hcon)
              rw [parse_response_of_header_ok _ _ _ hf hpo, if_pos hu3]
      · have hpe : parse_header (buf.take i) = .error .MissingSpaceCharacter := by
          unfold parse_header
          rw [if_neg (by omega), if_neg hsp]
        have hres : parse_response buf = .error .MissingSpaceCharacter :=
          parse_response_of_header_error _ _ _ hf hpe
        rw [hres]
        refine ⟨⟨fun hcon => absurd hcon (by decide), fun h3 => absurd h3 (by omega)⟩,
          fun _ => ⟨fun _ => hsp, fun _ => rfl⟩,
          fun hcon => absurd hcon (by decide)⟩

/-- C2 witness: the priority chain evaluated on the buffer CR LF — the CRLF
exists at position 0, so the failure is `HeaderTooShort`. -/
theorem C2_witness : parse_response [13, 10] = .error .HeaderTooShort := by
  have h := (C2_error_priority [13, 10]).2 0 (by decide)
  exact h.1.mpr (by decide)

/-- C3: for every `max_redirects` m and every transport whose every
response carries a Redirect-category status, `recursive_fetch` performs
exactly m + 1 fetch attempts and then fails with the too-many-redirects
error carrying m. -/
theorem C3_redirect_exhaustion {ε : Type} (m : Nat)
    (fetchFn : Nat → List Nat → Except ε Response)
    (hred : ∀ i u, ∃ r, fetchFn i u = .ok r ∧
        status_category r.header.status = some (.ok .Redirect))
    (url : List Nat) :
    recursive_fetch fetchFn url m = some (.error (.tooManyRedirects m))
    ∧ fetch_attempts fetchFn url m = m + 1 := by
  have key : ∀ remaining attempt u,
      recursive_fetch_go fetchFn m remaining attempt u =
        (some (.error (.tooManyRedirects m)), attempt + remaining) := by
    intro remaining
    induction remaining with
    | zero =>
      intro attempt u
      simp [recursive_fetch_go]
    | succ r ih =>
      intro attempt u
      obtain ⟨resp, hok, hcat⟩ := hred attempt u
      simp only [recursive_fetch_go, hok, hcat]
      rw [if_pos trivial, ih]
      simp only [Prod.mk.injEq, true_and]
      omega
  constructor
  · unfold recursive_fetch
    rw [key]
  · unfold fetch_attempts
    rw [key]
    show 0 + (m + 1) = m + 1
    omega

/-- C3 witness: a transport always answering status 30 exhausts
`max_redirects = 3` after exactly 4 attempts. -/
theorem C3_witness :
    recursive_fetch
        (fun _ _ => (.ok ⟨⟨[51, 48], [110, 101, 120, 116]⟩, []⟩ :
          Except Unit Response)) [115] 3
      = some (.error (.tooManyRedirects 3))
    ∧ fetch_attempts
        (fun _ _ => (.ok ⟨⟨[51, 48], [110, 101, 120, 116]⟩, []⟩ :
          Except Unit Response)) [115] 3 = 4 :=
  C3_redirect_exhaustion 3 _ (fun _ _ => ⟨_, rfl, by decide⟩) [115]

/-- C8: for every `max_redirects` ≥ 1 and every transport answering the
first attempt with status 30 and meta next and the second attempt — at the
URL next, the first response's meta taken verbatim — with status 20 and
meta ok, `recursive_fetch` returns the second response after exactly 2
attempts, independent of the exact bound. -/
theorem C8_redirect_then_success {ε : Type} (m : Nat)
    (fetchFn : Nat → List Nat → Except ε Response) (start b0 b1 : List Nat)
    (hm : 1 ≤ m)
    (h0 : fetchFn 0 start = .ok ⟨⟨[51, 48], [110, 101, 120, 116]⟩, b0⟩)
    (h1 : fetchFn 1 [110, 101, 120, 116] = .ok ⟨⟨[50, 48], [111, 107]⟩, b1⟩) :
    recursive_fetch fetchFn start m = some (.ok ⟨⟨[50, 48], [111, 107]⟩, b1⟩)
    ∧ fetch_attempts fetchFn start m = 2 := by
  obtain ⟨k, rfl⟩ : ∃ k, m = k + 1 := ⟨m - 1, by omega⟩
  have hc30 : status_category [51, 48] = some (.ok .Redirect) := by decide
  have hc20 : status_category [50, 48] = some (.ok .Success) := by decide
  have hgo : recursive_fetch_go fetchFn (k + 1) (k + 1 + 1) 0 start
      = (some (.ok ⟨⟨[50, 48], [111, 107]⟩, b1⟩), 2) := by
    simp only [recursive_fetch_go, h0, hc30]
    rw [if_pos trivial]
    simp only [recursive_fetch_go, h1, hc20]
    simp
  exact ⟨by unfold recursive_fetch; rw [hgo],
    by unfold fetch_attempts; rw [hgo]⟩

/-- C8 witness: the two-attempt run with `max_redirects = 1` and a
transport switching from status 30 to status 20. -/
theorem C8_witness :
    recursive_fetch
        (fun i _ => (if i = 0 then .ok ⟨⟨[51, 48], [110, 101, 120, 116]⟩, []⟩
          else .ok ⟨⟨[50, 48], [111, 107]⟩, [98]⟩ : Except Unit Response))
        [115] 1
      = some (.ok ⟨⟨[50, 48], [111, 107]⟩, [98]⟩)
    ∧ fetch_attempts
        (fun i _ => (if i = 0 then .ok ⟨⟨[51, 48], [110, 101, 120, 116]⟩, []⟩
          else .ok ⟨⟨[50, 48], [111, 107]⟩, [98]⟩ : Except Unit Response))
        [115] 1 = 2 :=
  C8_redirect_then_success 1 _ [115] [] [98] (by decide) (by decide) (by decide)

/-- C10: whenever `recursive_fetch` returns a response successfully, the
classification of that response's status succeeds and its category is not
Redirect — the loop never surfaces a redirect response, nor a response
whose status fails classification, as the final result. -/
theorem C10_no_redirect_result {ε : Type}
    (fetchFn : Nat → List Nat → Except ε Response) (url : List Nat)
    (m : Nat) (r : Response)
    (h : recursive_fetch fetchFn url m = some (.ok r)) :
    ∃ cat, status_category r.header.status = some (.ok cat)
      ∧ cat ≠ .Redirect := by
  have key : ∀ remaining attempt u,
      (recursive_fetch_go fetchFn m remaining attempt u).1 = some (.ok r) →
      ∃ cat, status_category r.header.status = some (.ok cat)
        ∧ cat ≠ .Redirect := by
    intro remaining
    induction remaining with
    | zero =>
      intro attempt u h'
      simp [recursive_fetch_go] at h'
    | succ k ih =>
      intro attempt u h'
      simp only [recursive_fetch_go] at h'
      cases hfe : fetchFn attempt u with
      | error e =>
        simp only [hfe] at h'
        have hpair : some (Except.error (FetchError.transport e))
            = some (Except.ok r) := h'
        injection hpair with h2
        cases h2
      | ok resp =>
        simp only [hfe] at h'
        cases hsc : status_category resp.header.status with
        | none =>
          simp only [hsc] at h'
          have hpair : (none : Option (Except (FetchError ε) Response))
              = some (Except.ok r) := h'
          cases hpair
        | some exc =>
          simp only [hsc] at h'
          cases exc with
          | error e =>
            have hpair : some (Except.error (FetchError.gemini e))
                = some (Except.ok r) := h'
            injection hpair with h2
            cases h2
          | ok cat =>
            cases cat
            case Redirect => exact ih _ _ h'
            all_goals {
              have hpair : some (Except.ok resp) = some (Except.ok r) := h'
              injection hpair with h2
              injection h2 with h3
              subst h3
              exact ⟨_, hsc, by intro hq; cases hq⟩ }
  exact key (m + 1) 0 url h

/-- C10 witness: the invariant applied to a one-attempt run ending in a
status 20 response. -/
theorem C10_witness :
    ∃ cat, status_category
        ((⟨⟨[50, 48], []⟩, []⟩ : Response)).header.status = some (.ok cat)
      ∧ cat ≠ .Redirect :=
  C10_no_redirect_result
    (fun _ _ => (.ok ⟨⟨[50, 48], []⟩, []⟩ : Except Unit Response)) [] 0
    ⟨⟨[50, 48], []⟩, []⟩ (by decide)

end Gget
